import Mathlib

/-!
Shallow embedding of the grid-unification and ensemble-assembly subsystem of
the ARA_analysis repository, together with proofs settling the frozen claims
about it.

Sources embedded:
- src/data_loading/subset_region.py  (subset_dataset, get_reference_extent)
- src/data_loading/subset_time.py    (get_common_time_range, subset_time)
- src/data_loading/load_data.py      (parse_member_id, parse_member_from_filename,
                                      unify_lat_lon, load_ensemble_any_latlon)
- src/data_loading/unify_grids.py    (force_match_dimensions)
- src/utils/grid_utils.py            (get_spatial_bounds, check_grid_alignment)

Modelling conventions:
- Coordinate values are rationals, time values are integers (the numeric
  content of the claims never needs floats).
- A rank-1 rectilinear dataset is a pair of 1-D axes plus a data variable
  indexed positionally by the two axes; a rank-2 curvilinear dataset carries
  explicit extents and 2-D coordinate fields as total functions on indices.
- Python exceptions become Option / Except values.
- The lazy chunked engine is invisible to a shallow embedding; every
  operation is modelled by its materialized result.
-/

namespace ARA

/-- Inclusive bounding box, as passed in the `bounds` dictionary of
`subset_dataset` and produced by `get_reference_extent` and
`get_spatial_bounds`. -/
structure Bounds where
  lat_min : ℚ
  lat_max : ℚ
  lon_min : ℚ
  lon_max : ℚ
deriving DecidableEq

/-- The per-value latitude inclusion predicate of `subset_dataset`
(line 112 of subset_region.py): `lat_data >= lat_min and lat_data <= lat_max`. -/
def latWithin (b : Bounds) (v : ℚ) : Bool :=
  decide (b.lat_min ≤ v) && decide (v ≤ b.lat_max)

/-- The per-value longitude inclusion predicate of `subset_dataset`
(line 113 of subset_region.py). -/
def lonWithin (b : Bounds) (v : ℚ) : Bool :=
  decide (b.lon_min ≤ v) && decide (v ≤ b.lon_max)

/-- A dataset whose latitude and longitude are rank-1 index coordinates:
the two axes carry the coordinate values and `val` is the primary data
variable, indexed positionally by (latitude index, longitude index). -/
structure Grid1D where
  lat : List ℚ
  lon : List ℚ
  val : ℕ → ℕ → ℚ

/-- The kept (position, value) pairs of the latitude axis: positions whose
value satisfies the mask `lat_mask`.  In the source the kept values
`lat_data[lat_mask]` are handed to `ds.sel`, and label selection of values
drawn from the axis itself selects exactly the positions whose value
satisfies the mask. -/
def latSel (g : Grid1D) (b : Bounds) : List (ℕ × ℚ) :=
  g.lat.enum.filter (fun x => latWithin b x.2)

/-- Kept (position, value) pairs of the longitude axis, as `latSel`. -/
def lonSel (g : Grid1D) (b : Bounds) : List (ℕ × ℚ) :=
  g.lon.enum.filter (fun x => lonWithin b x.2)

/-- The rank-1 branch of `subset_dataset` (subset_region.py lines 110-118):
mask each axis independently, then `ds.sel` on the kept coordinate values,
an exact per-axis index selection. -/
def subset1d (g : Grid1D) (b : Bounds) : Grid1D :=
  { lat := (latSel g b).map Prod.snd
    lon := (lonSel g b).map Prod.snd
    val := fun i j =>
      g.val (((latSel g b).map Prod.fst).getD i 0) (((lonSel g b).map Prod.fst).getD j 0) }

/-- A dataset whose latitude and longitude are rank-2 curvilinear fields
over two spatial dimensions of extents `ny`, `nx`; the data variable is
Option-valued so that the NaN cells written by `ds.where` can be `none`. -/
structure Grid2D where
  ny : ℕ
  nx : ℕ
  lat : ℕ → ℕ → ℚ
  lon : ℕ → ℕ → ℚ
  val : ℕ → ℕ → Option ℚ

/-- The combined 2-D boolean predicate `within_box` of `subset_dataset`
(subset_region.py lines 122-125): latitude and longitude of the cell both
inside the box. -/
def withinBox (g : Grid2D) (b : Bounds) (i j : ℕ) : Bool :=
  latWithin b (g.lat i j) && lonWithin b (g.lon i j)

/-- Row indices kept by `ds.where(within_box, drop=True)`: the rows that
contain at least one `True` cell of the materialized mask. -/
def keepRows (g : Grid2D) (b : Bounds) : List ℕ :=
  (List.range g.ny).filter (fun i => (List.range g.nx).any (fun j => withinBox g b i j))

/-- Column indices kept by `ds.where(within_box, drop=True)`. -/
def keepCols (g : Grid2D) (b : Bounds) : List ℕ :=
  (List.range g.nx).filter (fun j => (List.range g.ny).any (fun i => withinBox g b i j))

/-- The rank-2 branch of `subset_dataset` (subset_region.py lines 120-128):
compute the combined mask, materialize it, then `ds.where(mask, drop=True)`,
which drops every all-False row and column and masks the remaining data
cells whose mask entry is False. -/
def subset2d (g : Grid2D) (b : Bounds) : Grid2D :=
  { ny := (keepRows g b).length
    nx := (keepCols g b).length
    lat := fun i j => g.lat ((keepRows g b).getD i 0) ((keepCols g b).getD j 0)
    lon := fun i j => g.lon ((keepRows g b).getD i 0) ((keepCols g b).getD j 0)
    val := fun i j =>
      if withinBox g b ((keepRows g b).getD i 0) ((keepCols g b).getD j 0) then
        g.val ((keepRows g b).getD i 0) ((keepCols g b).getD j 0)
      else none }

/-- A spatial dataset as seen by `subset_dataset`: either rank-1 axes or a
rank-2 curvilinear grid (the `ndim` branch of subset_region.py line 110).
Resolution of the lat/lon variable names (lines 94-107) is modelled away by
carrying the fields directly. -/
inductive SpatialDS where
  | oneD (g : Grid1D)
  | twoD (g : Grid2D)

/-- Embedding of `subset_dataset(ds, lat_var, lon_var, bounds)`
(subset_region.py lines 64-130): absent bounds return the dataset
unchanged; otherwise dispatch on the rank of the coordinate fields. -/
def subset_dataset (ds : SpatialDS) (bounds : Option Bounds) : SpatialDS :=
  match bounds with
  | none => ds
  | some b =>
    match ds with
    | .oneD g => .oneD (subset1d g b)
    | .twoD g => .twoD (subset2d g b)

/-- Result of `get_common_time_range`: the `start_time` / `end_time`
dictionary of subset_time.py line 17. -/
structure TimeRange where
  start_time : ℤ
  end_time : ℤ
deriving DecidableEq

/-- A dataset as seen by the time subsetter: a 1-D time axis plus a data
variable indexed positionally along time. -/
structure TimeDS where
  time : List ℤ
  val : ℕ → ℚ

/-- Minimum of a list, as `.min().values` of a non-empty axis; `default`
on the empty list (numpy would raise there, and every claim that uses
this supplies a non-empty axis). -/
def listMin {α : Type} [LinearOrder α] [Inhabited α] : List α → α
  | [] => default
  | a :: l => l.foldl min a

/-- Maximum of a list, as `.max().values` of a non-empty axis. -/
def listMax {α : Type} [LinearOrder α] [Inhabited α] : List α → α
  | [] => default
  | a :: l => l.foldl max a

/-- Embedding of `get_common_time_range(ds1, ds2)` (subset_time.py lines
3-17): start is the later of the two minima, end the earlier of the two
maxima; no overlap check is performed, an empty range is returned as is. -/
def get_common_time_range (ds1 ds2 : TimeDS) : TimeRange :=
  { start_time := max (listMin ds1.time) (listMin ds2.time)
    end_time := min (listMax ds1.time) (listMax ds2.time) }

/-- Kept (position, value) pairs of the time axis under a label slice
`slice(start, end)`, both endpoints inclusive, on a monotonic time index. -/
def timeSel (ds : TimeDS) (r : TimeRange) : List (ℕ × ℤ) :=
  ds.time.enum.filter (fun x => decide (r.start_time ≤ x.2) && decide (x.2 ≤ r.end_time))

/-- Embedding of `subset_time(ds, time_var, time_bounds)` (subset_time.py
lines 19-34): absent bounds return the dataset unchanged, otherwise select
the inclusive label slice along time. -/
def subset_time (ds : TimeDS) (time_bounds : Option TimeRange) : TimeDS :=
  match time_bounds with
  | none => ds
  | some r =>
    { time := (timeSel ds r).map Prod.snd
      val := fun i => ds.val (((timeSel ds r).map Prod.fst).getD i 0) }

/-- A dataset as seen by `grid_utils.py`: the value lists of its named
latitude and longitude fields (any rank, flattened; only extrema are
used). -/
structure FlatDS where
  lat : List ℚ
  lon : List ℚ
deriving DecidableEq

/-- Embedding of `get_spatial_bounds(ds, lat_var, lon_var)` (grid_utils.py
lines 4-21). -/
def get_spatial_bounds (ds : FlatDS) : Bounds :=
  { lat_min := listMin ds.lat
    lat_max := listMax ds.lat
    lon_min := listMin ds.lon
    lon_max := listMax ds.lon }

/-- Embedding of `check_grid_alignment(ds1, ds2, ...)` (grid_utils.py lines
23-50): closed-interval overlap test of the two bounding boxes on each axis
independently, conjoined.  The debug prints of the source have no
observable effect on the result and are dropped. -/
def check_grid_alignment (ds1 ds2 : FlatDS) : Bool :=
  (decide ((get_spatial_bounds ds1).lat_min ≤ (get_spatial_bounds ds2).lat_max)
    && decide ((get_spatial_bounds ds1).lat_max ≥ (get_spatial_bounds ds2).lat_min))
  && (decide ((get_spatial_bounds ds1).lon_min ≤ (get_spatial_bounds ds2).lon_max)
    && decide ((get_spatial_bounds ds1).lon_max ≥ (get_spatial_bounds ds2).lon_min))

/-- Dimension table of a dataset: dimension name to extent, the `ds.dims`
mapping used by `force_match_dimensions`. -/
abbrev DimMap := List (String × ℕ)

/-- The three `ValueError` exits of `force_match_dimensions`
(unify_grids.py lines 30, 35, 38). -/
inductive MatchErr where
  | missingRef (dims : String × String)
  | missingEns (dims : String × String)
  | shapeMismatch (ref ens : ℕ × ℕ)
deriving DecidableEq

/-- The `ds_ref.rename({y_dim: lat_dim, x_dim: lon_dim})` step of
`force_match_dimensions` (unify_grids.py line 44): simultaneous rename of
the two reference dimension names to the ensemble names. -/
def renameRefDims (dims : DimMap) (ref_dims ens_dims : String × String) : DimMap :=
  dims.map (fun p =>
    (if p.1 = ref_dims.1 then ens_dims.1 else if p.1 = ref_dims.2 then ens_dims.2 else p.1,
     p.2))

/-- Embedding of `force_match_dimensions(ds_ref, ds_ens, ref_dims,
ens_dims)` (unify_grids.py lines 4-50): check both named dimension pairs
exist, compare extents, and on success rename the reference dims to the
ensemble names, returning both datasets. -/
def force_match_dimensions (ds_ref ds_ens : DimMap) (ref_dims ens_dims : String × String) :
    Except MatchErr (DimMap × DimMap) :=
  match ds_ref.lookup ref_dims.1, ds_ref.lookup ref_dims.2 with
  | some ry, some rx =>
    (match ds_ens.lookup ens_dims.1, ds_ens.lookup ens_dims.2 with
     | some ey, some ex =>
       if (ry, rx) ≠ (ey, ex) then .error (.shapeMismatch (ry, rx) (ey, ex))
       else .ok (renameRefDims ds_ref ref_dims ens_dims, ds_ens)
     | _, _ => .error (.missingEns ens_dims))
  | _, _ => .error (.missingRef ref_dims)

/-- Embedding of `os.path.basename`: the suffix of the path after the last
path separator. -/
def basename (path : List Char) : List Char :=
  (path.reverse.takeWhile (fun c => c ≠ '/')).reverse

/-- The anchored regular expression `_(\x5cd\x7b2\x7d)\.nc$` applied to a
string: because the pattern is end-anchored and of fixed length, it matches
exactly when the last six characters are an underscore, two ASCII digits,
and the literal extension, and it captures the two digits. -/
def matchMemberSuffix (b : List Char) : Option (List Char) :=
  match b.reverse with
  | 'c' :: 'n' :: '.' :: d2 :: d1 :: '_' :: _ =>
    if d1.isDigit && d2.isDigit then some [d1, d2] else none
  | _ => none

/-- Embedding of `parse_member_id(filepath)` (load_data.py lines 31-42):
apply the member-suffix regular expression to the basename; `none` models
the `ValueError` naming the offending path. -/
def parse_member_id (path : List Char) : Option (List Char) :=
  matchMemberSuffix (basename path)

/-- Embedding of `parse_member_from_filename(filepath)` (load_data.py lines
45-56), a verbatim duplicate of `parse_member_id` in the source. -/
def parse_member_from_filename (path : List Char) : Option (List Char) :=
  matchMemberSuffix (basename path)

/-- A variable of a dataset as needed by `unify_lat_lon`: only its
dimension names (hence its rank) matter. -/
structure XVar where
  dims : List String
deriving DecidableEq

/-- A dataset as seen by `unify_lat_lon`: named variables (data variables
and coordinates alike, as in `ds.variables`) plus the subset of names
registered as coordinates (`ds.coords`). -/
structure XDataset where
  vars : List (String × XVar)
  coords : List String
deriving DecidableEq

/-- The names of all variables of the dataset, as `ds.variables`. -/
def varNames (ds : XDataset) : List String := ds.vars.map Prod.fst

/-- The rank of the named variable, if present. -/
def ndimOf (ds : XDataset) (n : String) : Option ℕ :=
  (ds.vars.lookup n).map (fun v => v.dims.length)

/-- Simultaneous rename of two names, as a `ds.rename({o1: n1, o2: n2})`
dictionary acts on one name. -/
def renameStr (o1 n1 o2 n2 s : String) : String :=
  if s = o1 then n1 else if s = o2 then n2 else s

/-- The `ds.rename({lat_name: "lat2d", lon_name: "lon2d"})` step of
`unify_lat_lon`: renames matching variable names, dimension names and
coordinate names, keeping coordinate registration intact. -/
def renameVars (ds : XDataset) (o1 n1 o2 n2 : String) : XDataset :=
  { vars := ds.vars.map (fun p =>
      (renameStr o1 n1 o2 n2 p.1, { dims := p.2.dims.map (renameStr o1 n1 o2 n2) }))
    coords := ds.coords.map (renameStr o1 n1 o2 n2) }

/-- Embedding of `xarray.Dataset.set_coords(names)`: marks the named
variables as coordinates.  Its documented semantics is promotion only
(`_coord_names.update(names)`): names already registered stay registered,
and names absent from the argument are never demoted. -/
def set_coords (ds : XDataset) (names : List String) : XDataset :=
  { ds with coords := ds.coords ++ names.filter (fun n => ¬ ds.coords.contains n) }

/-- The body of the coordinate loop of `unify_lat_lon` (load_data.py lines
82-84): for each snapshot coordinate name equal to lat2d or lon2d, call
`set_coords` on all current coordinate names except that one. -/
def unifyCoordStep (d : XDataset) (c : String) : XDataset :=
  if c = "lat2d" ∨ c = "lon2d" then set_coords d (d.coords.filter (fun x => x ≠ c)) else d

/-- Embedding of `unify_lat_lon(ds, lat_name, lon_name)` (load_data.py
lines 58-89): missing names return the dataset unchanged; if both fields
are rank-2 they are renamed to lat2d/lon2d and the coordinate loop runs
over a snapshot of the renamed coordinate list; otherwise the dataset is
returned unchanged. -/
def unify_lat_lon (ds : XDataset) (lat_name lon_name : String) : XDataset :=
  if lat_name ∉ varNames ds ∨ lon_name ∉ varNames ds then ds
  else if ndimOf ds lat_name = some 2 ∧ ndimOf ds lon_name = some 2 then
    (renameVars ds lat_name "lat2d" lon_name "lon2d").coords.foldl unifyCoordStep
      (renameVars ds lat_name "lat2d" lon_name "lon2d")
  else ds

/-- One daily per-member file as consumed by `load_ensemble_any_latlon`,
identified by its date stamp and two-digit member code.  Under the
filename convention `variable_YYYYMMDD_MM.nc` with a common variable
prefix, fixed-width date and fixed-width member code, lexicographic
filename order is exactly lexicographic (date, member) order, and
each daily file contributes its date as one time-axis label. -/
structure EFile where
  date : ℕ
  member : ℕ
deriving DecidableEq

/-- Lexicographic filename order on daily member files (see `EFile`). -/
def fileLe (a b : EFile) : Prop :=
  a.date < b.date ∨ (a.date = b.date ∧ a.member ≤ b.member)

instance : DecidableRel fileLe := fun a b => by
  unfold fileLe; infer_instance

instance : IsTrans EFile fileLe := by
  constructor
  intro a b c hab hbc
  unfold fileLe at *
  omega

instance : IsTotal EFile fileLe := by
  constructor
  intro a b
  unfold fileLe
  omega

instance : IsAntisymm EFile fileLe := by
  constructor
  intro a b hab hba
  unfold fileLe at *
  have hd : a.date = b.date := by omega
  have hm : a.member = b.member := by omega
  cases a; cases b
  simp only at hd hm
  simp [hd, hm]

/-- Key accumulation of a Python dict built with `setdefault`: keys in
first-occurrence order. -/
def firstOccsAux (acc : List ℕ) : List ℕ → List ℕ
  | [] => acc
  | a :: l => firstOccsAux (if a ∈ acc then acc else acc ++ [a]) l

/-- Keys of a Python dict built by inserting the given list in order:
first occurrences, in encounter order. -/
def firstOccs (l : List ℕ) : List ℕ := firstOccsAux [] l

/-- Embedding of the member grouping loop of `load_ensemble_any_latlon`
(load_data.py lines 150-153): a dict from member id to that member's files
in encounter order, keys in first-encounter order. -/
def groupByMember (fs : List EFile) : List (ℕ × List EFile) :=
  (firstOccs (fs.map EFile.member)).map (fun m => (m, fs.filter (fun f => f.member == m)))

/-- Embedding of `load_ensemble_any_latlon(file_pattern, chunks)`
(load_data.py lines 131-188): resolve the pattern to a sorted file list
(`none` models the FileNotFoundError on an empty match), group by parsed
member id, per member sort the files again and concatenate their time
labels, and return the per-member datasets in dict iteration order, which
the final member-axis concatenation preserves.  Opening, coordinate
normalization and chunking do not affect the member/time structure and are
not modelled. -/
def load_ensemble_any_latlon (fs : List EFile) : Option (List (ℕ × List ℕ)) :=
  if fs.isEmpty then none
  else
    some ((groupByMember (List.insertionSort fileLe fs)).map
      (fun g => (g.1, (List.insertionSort fileLe g.2).map EFile.date)))

/-- The fully sorted file list of an N-member, M-day cross product:
date-major, member-minor.  `load_ensemble_any_latlon` sorts any
permutation of the cross product into this list. -/
def dateMajor (members dates : List ℕ) : List EFile :=
  dates.flatMap (fun d => members.map (fun m => { date := d, member := m }))

/-- Concrete rank-1 example grid for evaluating `subset1d`. -/
def g1Ex : Grid1D :=
  { lat := [46, 47, 50], lon := [9, 20], val := fun i j => (i : ℚ) + j }

/-- Concrete bounding box for evaluating the subsetters. -/
def bEx : Bounds := { lat_min := 46, lat_max := 49, lon_min := 9, lon_max := 17 }

/-- Concrete rank-2 example grid for evaluating `subset2d`: row 0 lies at
latitude 47 (inside `bEx`), row 1 at latitude 60 (outside). -/
def g2Ex : Grid2D :=
  { ny := 2, nx := 2
    lat := fun i _ => if i = 0 then 47 else 60
    lon := fun _ j => if j = 0 then 10 else 30
    val := fun i j => some ((i : ℚ) + j) }

/-- Concrete time datasets with a non-overlapping common range. -/
def tEx1 : TimeDS := { time := [3, 4], val := fun _ => 0 }

/-- Second concrete time dataset, later than `tEx1`. -/
def tEx2 : TimeDS := { time := [10, 11], val := fun _ => 0 }

/-- Spatial extent box 1 of the claim about `check_grid_alignment`. -/
def box1 : FlatDS := { lat := [40, 50], lon := [5, 15] }

/-- Spatial extent box 2, overlapping `box1` on both axes. -/
def box2 : FlatDS := { lat := [45, 55], lon := [10, 20] }

/-- Box 2 with its latitudes shifted to [60, 70], no latitude overlap. -/
def box2shift : FlatDS := { lat := [60, 70], lon := [10, 20] }

/-- Reference dimension table (y=329, x=584). -/
def refDimsEx : DimMap := [("y", 329), ("x", 584)]

/-- Ensemble dimension table (lat=329, lon=584). -/
def ensDimsEx : DimMap := [("lat", 329), ("lon", 584)]

/-- Reference dimension table with a mismatching y extent (y=300, x=584). -/
def refDimsBad : DimMap := [("y", 300), ("x", 584)]

/-- A dataset with 2-D coordinate fields latitude(y,x), longitude(y,x)
registered as coordinates, as produced by `open_dataset` with
`decode_coords="all"` on a curvilinear file. -/
def dsCurv : XDataset :=
  { vars := [("latitude", { dims := ["y", "x"] }),
             ("longitude", { dims := ["y", "x"] }),
             ("RR", { dims := ["time", "y", "x"] })]
    coords := ["latitude", "longitude"] }

/-- A dataset with mixed-rank coordinate fields: latitude rank-1,
longitude rank-2. -/
def dsMixed : XDataset :=
  { vars := [("latitude", { dims := ["y"] }),
             ("longitude", { dims := ["y", "x"] }),
             ("RR", { dims := ["time", "y", "x"] })]
    coords := ["latitude", "longitude"] }

/-- A scrambled 2-member, 2-day file set (discovery order is neither
member- nor date-sorted). -/
def fsEx : List EFile :=
  [{ date := 20170102, member := 1 }, { date := 20170101, member := 0 },
   { date := 20170102, member := 0 }, { date := 20170101, member := 1 }]

/-! ### Helper lemmas about list extrema -/

theorem foldl_min_le_init {α : Type} [LinearOrder α] (l : List α) (a : α) :
    l.foldl min a ≤ a := by
  induction l generalizing a with
  | nil => simp
  | cons x xs ih =>
    simp only [List.foldl_cons]
    exact le_trans (ih (min a x)) (min_le_left a x)

theorem foldl_min_le_mem {α : Type} [LinearOrder α] {l : List α} {x : α} (a : α) (h : x ∈ l) :
    l.foldl min a ≤ x := by
  induction l generalizing a with
  | nil => cases h
  | cons y ys ih =>
    simp only [List.foldl_cons]
    rcases List.mem_cons.mp h with rfl | hx
    · exact le_trans (foldl_min_le_init ys (min a x)) (min_le_right a x)
    · exact ih (min a y) hx

theorem foldl_min_mem {α : Type} [LinearOrder α] (l : List α) (a : α) :
    l.foldl min a = a ∨ l.foldl min a ∈ l := by
  induction l generalizing a with
  | nil => left; rfl
  | cons x xs ih =>
    simp only [List.foldl_cons]
    rcases ih (min a x) with h | h
    · rw [h]
      rcases min_cases a x with ⟨h1, _⟩ | ⟨h1, _⟩
      · left; exact h1
      · right; rw [h1]; exact List.mem_cons_self x xs
    · right; exact List.mem_cons_of_mem x h

theorem init_le_foldl_max {α : Type} [LinearOrder α] (l : List α) (a : α) :
    a ≤ l.foldl max a := by
  induction l generalizing a with
  | nil => simp
  | cons x xs ih =>
    simp only [List.foldl_cons]
    exact le_trans (le_max_left a x) (ih (max a x))

theorem mem_le_foldl_max {α : Type} [LinearOrder α] {l : List α} {x : α} (a : α) (h : x ∈ l) :
    x ≤ l.foldl max a := by
  induction l generalizing a with
  | nil => cases h
  | cons y ys ih =>
    simp only [List.foldl_cons]
    rcases List.mem_cons.mp h with rfl | hx
    · exact le_trans (le_max_right a x) (init_le_foldl_max ys (max a x))
    · exact ih (max a y) hx

theorem foldl_max_mem {α : Type} [LinearOrder α] (l : List α) (a : α) :
    l.foldl max a = a ∨ l.foldl max a ∈ l := by
  induction l generalizing a with
  | nil => left; rfl
  | cons x xs ih =>
    simp only [List.foldl_cons]
    rcases ih (max a x) with h | h
    · rw [h]
      rcases max_cases a x with ⟨h1, _⟩ | ⟨h1, _⟩
      · left; exact h1
      · right; rw [h1]; exact List.mem_cons_self x xs
    · right; exact List.mem_cons_of_mem x h

theorem listMin_mem {α : Type} [LinearOrder α] [Inhabited α] {l : List α} (h : l ≠ []) :
    listMin l ∈ l := by
  cases l with
  | nil => exact absurd rfl h
  | cons a l =>
    simp only [listMin]
    rcases foldl_min_mem l a with h1 | h1
    · rw [h1]; exact List.mem_cons_self a l
    · exact List.mem_cons_of_mem a h1

theorem listMin_le {α : Type} [LinearOrder α] [Inhabited α] {l : List α} {x : α} (h : x ∈ l) :
    listMin l ≤ x := by
  cases l with
  | nil => cases h
  | cons a l =>
    simp only [listMin]
    rcases List.mem_cons.mp h with rfl | hx
    · exact foldl_min_le_init l x
    · exact foldl_min_le_mem a hx

theorem listMax_mem {α : Type} [LinearOrder α] [Inhabited α] {l : List α} (h : l ≠ []) :
    listMax l ∈ l := by
  cases l with
  | nil => exact absurd rfl h
  | cons a l =>
    simp only [listMax]
    rcases foldl_max_mem l a with h1 | h1
    · rw [h1]; exact List.mem_cons_self a l
    · exact List.mem_cons_of_mem a h1

theorem le_listMax {α : Type} [LinearOrder α] [Inhabited α] {l : List α} {x : α} (h : x ∈ l) :
    x ≤ listMax l := by
  cases l with
  | nil => cases h
  | cons a l =>
    simp only [listMax]
    rcases List.mem_cons.mp h with rfl | hx
    · exact init_le_foldl_max l x
    · exact mem_le_foldl_max a hx

theorem listMin_le_listMax {α : Type} [LinearOrder α] [Inhabited α] {l : List α} (h : l ≠ []) :
    listMin l ≤ listMax l :=
  listMin_le (listMax_mem h)

/-- Closed intervals with ordered endpoints intersect exactly when each
lower endpoint is below the opposite upper endpoint. -/
theorem icc_overlap_iff {a b c d : ℚ} (hab : a ≤ b) (hcd : c ≤ d) :
    (a ≤ d ∧ c ≤ b) ↔ (Set.Icc a b ∩ Set.Icc c d).Nonempty := by
  rw [Set.Icc_inter_Icc, Set.nonempty_Icc]
  constructor
  · rintro ⟨h1, h2⟩
    exact sup_le_iff.mpr ⟨le_inf_iff.mpr ⟨hab, h1⟩, le_inf_iff.mpr ⟨h2, hcd⟩⟩
  · intro h
    rw [sup_le_iff, le_inf_iff, le_inf_iff] at h
    exact ⟨h.1.2, h.2.1⟩

/-! ### Claims C9, C6, C5, C8 -/

/-- Claim C9: for every dataset, `subset_dataset` with absent bounds and
`subset_time` with absent time bounds return the dataset unchanged (the
identity law of the two subsetters). -/
theorem claim_C9 :
    (∀ ds : SpatialDS, subset_dataset ds none = ds)
    ∧ (∀ ds : TimeDS, subset_time ds none = ds) :=
  ⟨fun _ => rfl, fun _ => rfl⟩

/-- Claim C6: for datasets with non-empty time axes,
`get_common_time_range` starts at the later of the two time minima and
ends at the earlier of the two maxima — where `listMin`/`listMax` are
genuine extrema of the axes — and the operation is commutative.  The
function is total: a start later than the end (no overlap) is returned as
that empty range, no error path exists. -/
theorem claim_C6 (a b : TimeDS) (ha : a.time ≠ []) (hb : b.time ≠ []) :
    (get_common_time_range a b).start_time = max (listMin a.time) (listMin b.time)
    ∧ (get_common_time_range a b).end_time = min (listMax a.time) (listMax b.time)
    ∧ (listMin a.time ∈ a.time ∧ ∀ x ∈ a.time, listMin a.time ≤ x)
    ∧ (listMax a.time ∈ a.time ∧ ∀ x ∈ a.time, x ≤ listMax a.time)
    ∧ (listMin b.time ∈ b.time ∧ ∀ x ∈ b.time, listMin b.time ≤ x)
    ∧ (listMax b.time ∈ b.time ∧ ∀ x ∈ b.time, x ≤ listMax b.time)
    ∧ get_common_time_range a b = get_common_time_range b a := by
  refine ⟨rfl, rfl, ⟨listMin_mem ha, fun x hx => listMin_le hx⟩,
    ⟨listMax_mem ha, fun x hx => le_listMax hx⟩,
    ⟨listMin_mem hb, fun x hx => listMin_le hx⟩,
    ⟨listMax_mem hb, fun x hx => le_listMax hx⟩, ?_⟩
  unfold get_common_time_range
  rw [max_comm, min_comm]

/-- Witness for claim C6 at two concrete non-overlapping time axes: the
common range degenerates to start 10, end 4 and is still returned. -/
theorem claim_C6_witness :
    (get_common_time_range tEx1 tEx2).start_time = max (listMin tEx1.time) (listMin tEx2.time)
    ∧ (get_common_time_range tEx1 tEx2).end_time = min (listMax tEx1.time) (listMax tEx2.time)
    ∧ (listMin tEx1.time ∈ tEx1.time ∧ ∀ x ∈ tEx1.time, listMin tEx1.time ≤ x)
    ∧ (listMax tEx1.time ∈ tEx1.time ∧ ∀ x ∈ tEx1.time, x ≤ listMax tEx1.time)
    ∧ (listMin tEx2.time ∈ tEx2.time ∧ ∀ x ∈ tEx2.time, listMin tEx2.time ≤ x)
    ∧ (listMax tEx2.time ∈ tEx2.time ∧ ∀ x ∈ tEx2.time, x ≤ listMax tEx2.time)
    ∧ get_common_time_range tEx1 tEx2 = get_common_time_range tEx2 tEx1 :=
  claim_C6 tEx1 tEx2 (by decide) (by decide)

/-- Claim C5: given both datasets contain their named dimensions,
`force_match_dimensions` returns the shape-mismatch error exactly when the
two extent pairs differ, and on equal extents returns the reference
dataset with its two dimensions renamed to the ensemble names, alongside
the untouched ensemble dataset. -/
theorem claim_C5 (ds_ref ds_ens : DimMap) (rd ed : String × String) (ry rx ey ex : ℕ)
    (h1 : ds_ref.lookup rd.1 = some ry) (h2 : ds_ref.lookup rd.2 = some rx)
    (h3 : ds_ens.lookup ed.1 = some ey) (h4 : ds_ens.lookup ed.2 = some ex) :
    ((force_match_dimensions ds_ref ds_ens rd ed
        = .error (.shapeMismatch (ry, rx) (ey, ex))) ↔ (ry, rx) ≠ (ey, ex))
    ∧ ((ry, rx) = (ey, ex) →
        force_match_dimensions ds_ref ds_ens rd ed
          = .ok (renameRefDims ds_ref rd ed, ds_ens)) := by
  unfold force_match_dimensions
  rw [h1, h2, h3, h4]
  by_cases h : (ry, rx) = (ey, ex)
  · simp [h]
  · simp [h]

/-- Witness for claim C5: reference dims (y=329, x=584) against ensemble
dims (lat=329, lon=584) succeed and rename; (y=300, x=584) against the
same ensemble dims raise the shape-mismatch error. -/
theorem claim_C5_witness :
    force_match_dimensions refDimsEx ensDimsEx ("y", "x") ("lat", "lon")
      = .ok ([("lat", 329), ("lon", 584)], ensDimsEx)
    ∧ force_match_dimensions refDimsBad ensDimsEx ("y", "x") ("lat", "lon")
      = .error (.shapeMismatch (300, 584) (329, 584)) := by
  constructor
  · have h := claim_C5 refDimsEx ensDimsEx ("y", "x") ("lat", "lon") 329 584 329 584
      (by decide) (by decide) (by decide) (by decide)
    rw [h.2 rfl]
    rfl
  · have h := claim_C5 refDimsBad ensDimsEx ("y", "x") ("lat", "lon") 300 584 329 584
      (by decide) (by decide) (by decide) (by decide)
    exact h.1.mpr (by decide)

/-- Claim C8: for datasets whose latitude/longitude fields are non-empty,
`check_grid_alignment` returns true exactly when the two bounding extents
intersect as closed intervals on both axes independently.  The embedding
is a pure function of the two datasets, so neither input is mutated. -/
theorem claim_C8 (ds1 ds2 : FlatDS)
    (h1a : ds1.lat ≠ []) (h1o : ds1.lon ≠ []) (h2a : ds2.lat ≠ []) (h2o : ds2.lon ≠ []) :
    check_grid_alignment ds1 ds2 = true ↔
      ((Set.Icc (listMin ds1.lat) (listMax ds1.lat)
          ∩ Set.Icc (listMin ds2.lat) (listMax ds2.lat)).Nonempty
       ∧ (Set.Icc (listMin ds1.lon) (listMax ds1.lon)
          ∩ Set.Icc (listMin ds2.lon) (listMax ds2.lon)).Nonempty) := by
  unfold check_grid_alignment get_spatial_bounds
  simp only [Bool.and_eq_true, decide_eq_true_eq, ge_iff_le]
  exact and_congr
    (icc_overlap_iff (listMin_le_listMax h1a) (listMin_le_listMax h2a))
    (icc_overlap_iff (listMin_le_listMax h1o) (listMin_le_listMax h2o))

/-- Witness for claim C8 at the concrete extent boxes of the claim:
box1 lat [40,50] lon [5,15] against box2 lat [45,55] lon [10,20] yields
true, and against the box shifted to lat [60,70] yields false. -/
theorem claim_C8_witness :
    (check_grid_alignment box1 box2 = true ↔
      ((Set.Icc (listMin box1.lat) (listMax box1.lat)
          ∩ Set.Icc (listMin box2.lat) (listMax box2.lat)).Nonempty
       ∧ (Set.Icc (listMin box1.lon) (listMax box1.lon)
          ∩ Set.Icc (listMin box2.lon) (listMax box2.lon)).Nonempty))
    ∧ check_grid_alignment box1 box2 = true
    ∧ check_grid_alignment box1 box2shift = false :=
  ⟨claim_C8 box1 box2 (by decide) (by decide) (by decide) (by decide), by decide, by decide⟩

/-! ### Claims C10, C2, C4 -/

/-- Claim C10: whenever the named latitude or longitude variable is absent,
or both are present but not both rank-2 (including the mixed rank-1 /
rank-2 case), `unify_lat_lon` returns the dataset unchanged without
raising: no renaming and no coordinate-set change. -/
theorem claim_C10 (ds : XDataset) (lat_name lon_name : String)
    (h : lat_name ∉ varNames ds ∨ lon_name ∉ varNames ds
      ∨ ¬(ndimOf ds lat_name = some 2 ∧ ndimOf ds lon_name = some 2)) :
    unify_lat_lon ds lat_name lon_name = ds := by
  unfold unify_lat_lon
  by_cases hmem : lat_name ∉ varNames ds ∨ lon_name ∉ varNames ds
  · rw [if_pos hmem]
  · rw [if_neg hmem]
    have hnd : ¬(ndimOf ds lat_name = some 2 ∧ ndimOf ds lon_name = some 2) := by
      rcases h with h | h | h
      · exact absurd (Or.inl h) hmem
      · exact absurd (Or.inr h) hmem
      · exact h
    rw [if_neg hnd]

/-- Witness for claim C10 at a concrete mixed-rank dataset (latitude
rank-1, longitude rank-2): the dataset comes back unchanged. -/
theorem claim_C10_witness : unify_lat_lon dsMixed "latitude" "longitude" = dsMixed :=
  claim_C10 dsMixed "latitude" "longitude" (Or.inr (Or.inr (by decide)))

/-- Claim C2, evaluated on the code: on a dataset whose rank-2
latitude/longitude fields are registered coordinates, `unify_lat_lon`
does rename them to lat2d/lon2d (and they keep rank 2), but both lat2d
and lon2d REMAIN members of the coordinate set of the result, contrary to
the claim and to the docstring of the source, because
`set_coords(coords - {name})` only promotes the listed names and never
demotes `name` itself. -/
theorem claim_C2 :
    varNames (unify_lat_lon dsCurv "latitude" "longitude") = ["lat2d", "lon2d", "RR"]
    ∧ ndimOf (unify_lat_lon dsCurv "latitude" "longitude") "lat2d" = some 2
    ∧ ndimOf (unify_lat_lon dsCurv "latitude" "longitude") "lon2d" = some 2
    ∧ "lat2d" ∈ (unify_lat_lon dsCurv "latitude" "longitude").coords
    ∧ "lon2d" ∈ (unify_lat_lon dsCurv "latitude" "longitude").coords := by
  decide

/-- The anchored fixed-length member-suffix pattern matches exactly the
strings ending in an underscore, two digits and the literal extension,
capturing the two digits. -/
theorem matchMemberSuffix_eq_some_iff (b m : List Char) :
    matchMemberSuffix b = some m ↔
      ∃ pre d1 d2, b = pre ++ ['_', d1, d2, '.', 'n', 'c']
        ∧ d1.isDigit = true ∧ d2.isDigit = true ∧ m = [d1, d2] := by
  constructor
  · intro h
    unfold matchMemberSuffix at h
    split at h
    · rename_i d2 d1 rest heq
      by_cases hdg : (d1.isDigit && d2.isDigit) = true
      · rw [if_pos hdg] at h
        have hm : m = [d1, d2] := (Option.some.inj h).symm
        have hb : b = rest.reverse ++ ['_', d1, d2, '.', 'n', 'c'] := by
          have hq := congrArg List.reverse heq
          rw [List.reverse_reverse] at hq
          rw [hq]
          simp
        rw [Bool.and_eq_true] at hdg
        exact ⟨rest.reverse, d1, d2, hb, hdg.1, hdg.2, hm⟩
      · rw [if_neg hdg] at h
        cases h
    · cases h
  · rintro ⟨pre, d1, d2, rfl, h1, h2, rfl⟩
    unfold matchMemberSuffix
    have hrev : (pre ++ ['_', d1, d2, '.', 'n', 'c']).reverse
        = 'c' :: 'n' :: '.' :: d2 :: d1 :: '_' :: pre.reverse := by
      simp
    rw [hrev]
    simp [h1, h2]

/-- Claim C4: the member resolver returns the two-digit string exactly
when the basename of the path ends in an underscore, two digits and the
`.nc` extension; otherwise it fails (`none`, modelling the ValueError
naming the path).  `parse_member_from_filename` behaves identically, and
the three concrete examples of the claim evaluate as stated. -/
theorem claim_C4 :
    (∀ path m, parse_member_id path = some m ↔
      ∃ pre d1 d2, basename path = pre ++ ['_', d1, d2, '.', 'n', 'c']
        ∧ d1.isDigit = true ∧ d2.isDigit = true ∧ m = [d1, d2])
    ∧ (∀ path, (¬ ∃ pre d1 d2, basename path = pre ++ ['_', d1, d2, '.', 'n', 'c']
        ∧ d1.isDigit = true ∧ d2.isDigit = true) → parse_member_id path = none)
    ∧ (∀ path, parse_member_from_filename path = parse_member_id path)
    ∧ parse_member_id ("total_precipitation_20170101_00.nc".toList) = some ['0', '0']
    ∧ parse_member_id ("total_precipitation_20170101_13.nc".toList) = some ['1', '3']
    ∧ parse_member_id ("total_precipitation_20170101.nc".toList) = none := by
  refine ⟨fun path m => matchMemberSuffix_eq_some_iff (basename path) m, ?_,
    fun _ => rfl, by decide, by decide, by decide⟩
  intro path hne
  cases hp : parse_member_id path with
  | none => rfl
  | some m =>
    obtain ⟨pre, d1, d2, hb, hd1, hd2, _⟩ :=
      (matchMemberSuffix_eq_some_iff (basename path) m).mp hp
    exact absurd ⟨pre, d1, d2, hb, hd1, hd2⟩ hne

/-! ### Claims C1, C7 -/

theorem mem_enum_spec {α : Type} (d : α) (l : List α) (x : ℕ × α) (h : x ∈ l.enum) :
    x.1 < l.length ∧ l.getD x.1 d = x.2 := by
  rw [List.mem_enum_iff_getElem?] at h
  have hlt : x.1 < l.length := by
    by_contra hge
    rw [List.getElem?_eq_none (le_of_not_lt hge)] at h
    cases h
  refine ⟨hlt, ?_⟩
  rw [List.getD_eq_getElem l d hlt]
  rw [List.getElem?_eq_getElem hlt] at h
  exact Option.some.inj h

theorem map_snd_filter_enum (l : List ℚ) (p : ℚ → Bool) :
    (l.enum.filter (fun x => p x.2)).map Prod.snd = l.filter p := by
  have h : (l.enum.map Prod.snd).filter p
      = (l.enum.filter (fun x => p (Prod.snd x))).map Prod.snd := by
    rw [List.filter_map]
    rfl
  rw [← h, List.enum_map_snd l]

theorem getD_map_fst {β : Type} (l : List (ℕ × β)) (i : ℕ) (h : i < l.length) :
    (l.map Prod.fst).getD i 0 = l[i].1 := by
  rw [List.getD_eq_getElem _ _ (by simpa using h)]
  exact List.getElem_map Prod.fst

theorem getD_map_snd (l : List (ℕ × ℚ)) (i : ℕ) (h : i < l.length) (d : ℚ) :
    (l.map Prod.snd).getD i d = l[i].2 := by
  rw [List.getD_eq_getElem _ _ (by simpa using h)]
  exact List.getElem_map Prod.snd

theorem latSel_spec (g : Grid1D) (b : Bounds) :
    ∀ x ∈ latSel g b, x.1 < g.lat.length ∧ g.lat.getD x.1 0 = x.2 ∧ latWithin b x.2 = true := by
  intro x hx
  rw [latSel, List.mem_filter] at hx
  obtain ⟨hlt, hval⟩ := mem_enum_spec 0 g.lat x hx.1
  exact ⟨hlt, hval, hx.2⟩

theorem lonSel_spec (g : Grid1D) (b : Bounds) :
    ∀ x ∈ lonSel g b, x.1 < g.lon.length ∧ g.lon.getD x.1 0 = x.2 ∧ lonWithin b x.2 = true := by
  intro x hx
  rw [lonSel, List.mem_filter] at hx
  obtain ⟨hlt, hval⟩ := mem_enum_spec 0 g.lon x hx.1
  exact ⟨hlt, hval, hx.2⟩

/-- Claim C1: on rank-1 latitude/longitude, `subset_dataset` keeps exactly
the coordinate values inside the closed bounding box on each axis
independently (the filter of the axis by the inclusive predicate), the
output spatial shape is exactly the count of satisfying values per axis,
and every output data cell is the original cell at a pair of selected
in-box indices — an exact index selection with no masked cells. -/
theorem claim_C1 (g : Grid1D) (b : Bounds) :
    subset_dataset (SpatialDS.oneD g) (some b) = SpatialDS.oneD (subset1d g b)
    ∧ (subset1d g b).lat = g.lat.filter (latWithin b)
    ∧ (subset1d g b).lon = g.lon.filter (lonWithin b)
    ∧ (subset1d g b).lat.length = g.lat.countP (latWithin b)
    ∧ (subset1d g b).lon.length = g.lon.countP (lonWithin b)
    ∧ (∀ i j, i < (subset1d g b).lat.length → j < (subset1d g b).lon.length →
        ∃ k l, k < g.lat.length ∧ l < g.lon.length
          ∧ (subset1d g b).lat.getD i 0 = g.lat.getD k 0
          ∧ (subset1d g b).lon.getD j 0 = g.lon.getD l 0
          ∧ latWithin b (g.lat.getD k 0) = true
          ∧ lonWithin b (g.lon.getD l 0) = true
          ∧ (subset1d g b).val i j = g.val k l) := by
  have hlat : (subset1d g b).lat = g.lat.filter (latWithin b) :=
    map_snd_filter_enum g.lat (latWithin b)
  have hlon : (subset1d g b).lon = g.lon.filter (lonWithin b) :=
    map_snd_filter_enum g.lon (lonWithin b)
  refine ⟨rfl, hlat, hlon, ?_, ?_, ?_⟩
  · rw [hlat]
    exact (List.countP_eq_length_filter _ _).symm
  · rw [hlon]
    exact (List.countP_eq_length_filter _ _).symm
  · intro i j hi hj
    have hleni : i < (latSel g b).length := by
      simpa [subset1d, List.length_map] using hi
    have hlenj : j < (lonSel g b).length := by
      simpa [subset1d, List.length_map] using hj
    obtain ⟨hklt, hkval, hkp⟩ := latSel_spec g b ((latSel g b)[i]) (List.getElem_mem hleni)
    obtain ⟨hllt, hlval, hlp⟩ := lonSel_spec g b ((lonSel g b)[j]) (List.getElem_mem hlenj)
    refine ⟨(latSel g b)[i].1, (lonSel g b)[j].1, hklt, hllt, ?_, ?_, ?_, ?_, ?_⟩
    · show ((latSel g b).map Prod.snd).getD i 0 = _
      rw [getD_map_snd (latSel g b) i hleni 0]
      exact hkval.symm
    · show ((lonSel g b).map Prod.snd).getD j 0 = _
      rw [getD_map_snd (lonSel g b) j hlenj 0]
      exact hlval.symm
    · rw [hkval]
      exact hkp
    · rw [hlval]
      exact hlp
    · show g.val (((latSel g b).map Prod.fst).getD i 0)
        (((lonSel g b).map Prod.fst).getD j 0) = _
      rw [getD_map_fst (latSel g b) i hleni, getD_map_fst (lonSel g b) j hlenj]

/-- Witness for claim C1 at a concrete grid and box: the latitude axis
[46, 47, 50] restricted to [46, 49] comes back as [46, 47]. -/
theorem claim_C1_witness : (subset1d g1Ex bEx).lat = [(46 : ℚ), 47] :=
  ((claim_C1 g1Ex bEx).2.1).trans (by decide)

theorem withinBox_iff (g : Grid2D) (b : Bounds) (i j : ℕ) :
    withinBox g b i j = true ↔
      (b.lat_min ≤ g.lat i j ∧ g.lat i j ≤ b.lat_max)
      ∧ (b.lon_min ≤ g.lon i j ∧ g.lon i j ≤ b.lon_max) := by
  unfold withinBox latWithin lonWithin
  simp only [Bool.and_eq_true, decide_eq_true_eq]

theorem mem_keepRows_iff (g : Grid2D) (b : Bounds) (i : ℕ) :
    i ∈ keepRows g b ↔ i < g.ny ∧ ∃ j, j < g.nx ∧ withinBox g b i j = true := by
  unfold keepRows
  rw [List.mem_filter, List.mem_range, List.any_eq_true]
  simp only [List.mem_range]

theorem mem_keepCols_iff (g : Grid2D) (b : Bounds) (j : ℕ) :
    j ∈ keepCols g b ↔ j < g.nx ∧ ∃ i, i < g.ny ∧ withinBox g b i j = true := by
  unfold keepCols
  rw [List.mem_filter, List.mem_range, List.any_eq_true]
  simp only [List.mem_range]

/-- Claim C7: on a rank-2 (curvilinear) grid, `subset_dataset` evaluates
the single combined boolean predicate over the full 2-D fields (the
conjunction of both closed-interval tests), keeps exactly the rows and
columns that contain at least one satisfying cell, and returns a
rectangular grid whose dimensions are those counts; every surviving data
value sits at a kept (row, column) pair whose mask entry is true (cells
with a false mask are `none`, the NaN of `ds.where`).  Materialization of
the mask before `where` (`within_box.compute()`, line 127) is an
evaluation-order fact with no observable in a shallow embedding; the
predicate here is by construction a fully computed table. -/
theorem claim_C7 (g : Grid2D) (b : Bounds) :
    subset_dataset (SpatialDS.twoD g) (some b) = SpatialDS.twoD (subset2d g b)
    ∧ (∀ i j, withinBox g b i j = true ↔
        (b.lat_min ≤ g.lat i j ∧ g.lat i j ≤ b.lat_max)
        ∧ (b.lon_min ≤ g.lon i j ∧ g.lon i j ≤ b.lon_max))
    ∧ (∀ i, i ∈ keepRows g b ↔ i < g.ny ∧ ∃ j, j < g.nx ∧ withinBox g b i j = true)
    ∧ (∀ j, j ∈ keepCols g b ↔ j < g.nx ∧ ∃ i, i < g.ny ∧ withinBox g b i j = true)
    ∧ (subset2d g b).ny = (keepRows g b).length
    ∧ (subset2d g b).nx = (keepCols g b).length
    ∧ (∀ i ∈ keepRows g b, ∃ j ∈ keepCols g b, withinBox g b i j = true)
    ∧ (∀ j ∈ keepCols g b, ∃ i ∈ keepRows g b, withinBox g b i j = true)
    ∧ (∀ i j q, i < (subset2d g b).ny → j < (subset2d g b).nx →
        (subset2d g b).val i j = some q →
        ∃ r c, r ∈ keepRows g b ∧ c ∈ keepCols g b
          ∧ withinBox g b r c = true ∧ g.val r c = some q) := by
  refine ⟨rfl, withinBox_iff g b, mem_keepRows_iff g b, mem_keepCols_iff g b, rfl, rfl,
    ?_, ?_, ?_⟩
  · intro i hi
    obtain ⟨hiny, j, hjnx, hw⟩ := (mem_keepRows_iff g b i).mp hi
    exact ⟨j, (mem_keepCols_iff g b j).mpr ⟨hjnx, i, hiny, hw⟩, hw⟩
  · intro j hj
    obtain ⟨hjnx, i, hiny, hw⟩ := (mem_keepCols_iff g b j).mp hj
    exact ⟨i, (mem_keepRows_iff g b i).mpr ⟨hiny, j, hjnx, hw⟩, hw⟩
  · intro i j q hi hj hval
    have hi2 : i < (keepRows g b).length := hi
    have hj2 : j < (keepCols g b).length := hj
    have hrmem : (keepRows g b).getD i 0 ∈ keepRows g b := by
      rw [List.getD_eq_getElem _ _ hi2]
      exact List.getElem_mem hi2
    have hcmem : (keepCols g b).getD j 0 ∈ keepCols g b := by
      rw [List.getD_eq_getElem _ _ hj2]
      exact List.getElem_mem hj2
    simp only [subset2d] at hval
    by_cases hw : withinBox g b ((keepRows g b).getD i 0) ((keepCols g b).getD j 0) = true
    · rw [if_pos hw] at hval
      exact ⟨(keepRows g b).getD i 0, (keepCols g b).getD j 0, hrmem, hcmem, hw, hval⟩
    · rw [if_neg hw] at hval
      cases hval

/-- Witness for claim C7 at a concrete curvilinear grid: row 0 (latitude
47, inside the box) is kept because its cell (0,0) satisfies the
combined predicate. -/
theorem claim_C7_witness : 0 ∈ keepRows g2Ex bEx :=
  ((claim_C7 g2Ex bEx).2.2.1 0).mpr ⟨by decide, 0, by decide, by decide⟩

/-! ### Claim C3 -/

theorem sorted_dateMajor (members dates : List ℕ) (hm : members.Sorted (· < ·))
    (hd : dates.Sorted (· < ·)) : (dateMajor members dates).Sorted fileLe := by
  unfold dateMajor
  induction hd with
  | nil => simp [List.Sorted]
  | @cons d ds hrel htail ih =>
    rw [List.flatMap_cons, List.Sorted, List.pairwise_append]
    refine ⟨?_, ih, ?_⟩
    · rw [List.pairwise_map]
      exact hm.imp (fun h => Or.inr ⟨rfl, le_of_lt h⟩)
    · intro a ha b hb
      obtain ⟨m1, hm1, rfl⟩ := List.mem_map.mp ha
      obtain ⟨d2, hd2, hb2⟩ := List.mem_flatMap.mp hb
      obtain ⟨m2, hm2, rfl⟩ := List.mem_map.mp hb2
      exact Or.inl (hrel d2 hd2)

theorem sort_eq_dateMajor (members dates : List ℕ) (fs : List EFile)
    (hm : members.Sorted (· < ·)) (hd : dates.Sorted (· < ·))
    (hperm : fs.Perm (dateMajor members dates)) :
    List.insertionSort fileLe fs = dateMajor members dates :=
  List.eq_of_perm_of_sorted ((List.perm_insertionSort fileLe fs).trans hperm)
    (List.sorted_insertionSort fileLe fs) (sorted_dateMajor members dates hm hd)

theorem firstOccsAux_append (acc l r : List ℕ) :
    firstOccsAux acc (l ++ r) = firstOccsAux (firstOccsAux acc l) r := by
  induction l generalizing acc with
  | nil => rfl
  | cons a l ih =>
    rw [List.cons_append]
    simp only [firstOccsAux]
    exact ih _

theorem firstOccsAux_absorb (acc r : List ℕ) (h : ∀ x ∈ r, x ∈ acc) :
    firstOccsAux acc r = acc := by
  induction r with
  | nil => rfl
  | cons a r ih =>
    simp only [firstOccsAux]
    rw [if_pos (h a (List.mem_cons_self a r))]
    exact ih (fun x hx => h x (List.mem_cons_of_mem a hx))

theorem firstOccsAux_disjoint : ∀ (l acc : List ℕ), l.Nodup → (∀ x ∈ l, x ∉ acc) →
    firstOccsAux acc l = acc ++ l := by
  intro l
  induction l with
  | nil =>
    intro acc _ _
    simp [firstOccsAux]
  | cons a l ih =>
    intro acc hnd hdisj
    simp only [firstOccsAux]
    rw [if_neg (hdisj a (List.mem_cons_self a l))]
    have hstep : firstOccsAux (acc ++ [a]) l = (acc ++ [a]) ++ l := by
      apply ih
      · exact (List.nodup_cons.mp hnd).2
      · intro x hx hmem
        rcases List.mem_append.mp hmem with hacc | hsing
        · exact hdisj x (List.mem_cons_of_mem a hx) hacc
        · have hxa := List.mem_singleton.mp hsing
          subst hxa
          exact (List.nodup_cons.mp hnd).1 hx
    rw [hstep]
    simp

theorem firstOccs_cross (members rest : List ℕ) (hnd : members.Nodup)
    (h : ∀ x ∈ rest, x ∈ members) : firstOccs (members ++ rest) = members := by
  unfold firstOccs
  rw [firstOccsAux_append]
  have h1 : firstOccsAux [] members = members := by
    have h2 := firstOccsAux_disjoint members [] hnd (by intro x _ hmem; cases hmem)
    simpa using h2
  rw [h1]
  exact firstOccsAux_absorb members rest h

theorem dateMajor_map_member (members dates : List ℕ) :
    (dateMajor members dates).map EFile.member = dates.flatMap (fun _ => members) := by
  unfold dateMajor
  rw [List.map_flatMap]
  congr 1
  funext d
  rw [List.map_map]
  rw [show (EFile.member ∘ fun m => EFile.mk d m) = id from rfl, List.map_id]

theorem filter_block (d m : ℕ) : ∀ (members : List ℕ), members.Nodup → m ∈ members →
    (members.map (fun x => EFile.mk d x)).filter (fun f => f.member == m)
      = [EFile.mk d m] := by
  intro members
  induction members with
  | nil =>
    intro _ hm
    cases hm
  | cons a l ih =>
    intro hnd hm
    rw [List.map_cons, List.filter_cons]
    rcases List.mem_cons.mp hm with heq | hm2
    · subst heq
      rw [if_pos (by simp)]
      have hml : m ∉ l := (List.nodup_cons.mp hnd).1
      have hnil : (l.map (fun x => EFile.mk d x)).filter (fun f => f.member == m) = [] := by
        rw [List.filter_eq_nil_iff]
        intro f hf
        obtain ⟨x, hx, rfl⟩ := List.mem_map.mp hf
        simp only [beq_iff_eq]
        intro hxm
        exact hml (hxm ▸ hx)
      rw [hnil]
    · have ha : ¬((EFile.mk d a).member == m) = true := by
        simp only [beq_iff_eq]
        intro h
        exact (List.nodup_cons.mp hnd).1 (h ▸ hm2)
      rw [if_neg ha]
      exact ih (List.nodup_cons.mp hnd).2 hm2

theorem dateMajor_filter_member (members dates : List ℕ) (m : ℕ) (hnd : members.Nodup)
    (hm : m ∈ members) :
    (dateMajor members dates).filter (fun f => f.member == m)
      = dates.map (fun d => EFile.mk d m) := by
  unfold dateMajor
  induction dates with
  | nil => rfl
  | cons d ds ih =>
    rw [List.flatMap_cons, List.filter_append, filter_block d m members hnd hm, ih,
      List.map_cons]
    rfl

theorem sorted_memberFiles (dates : List ℕ) (m : ℕ) (hd : dates.Sorted (· < ·)) :
    List.insertionSort fileLe (dates.map (fun d => EFile.mk d m))
      = dates.map (fun d => EFile.mk d m) := by
  apply List.Sorted.insertionSort_eq
  rw [List.Sorted, List.pairwise_map]
  exact hd.imp (fun h => Or.inl h)

/-- Claim C3: for a file set that is any permutation (any on-disk
discovery order) of N distinct member identifiers crossed with M disjoint
days, `load_ensemble_any_latlon` yields exactly one entry per member, in
ascending member-identifier order (length N along the member axis), each
carrying the M dates in ascending order as its time axis; the result
depends only on the file multiset, not on its order. -/
theorem claim_C3 (members dates : List ℕ) (fs : List EFile)
    (hm : members.Sorted (· < ·)) (hd : dates.Sorted (· < ·))
    (hmne : members ≠ []) (hdne : dates ≠ [])
    (hperm : fs.Perm (dateMajor members dates)) :
    load_ensemble_any_latlon fs = some (members.map (fun m => (m, dates))) := by
  have hnd : members.Nodup := hm.nodup
  have hsort := sort_eq_dateMajor members dates fs hm hd hperm
  have hfsne : fs ≠ [] := by
    intro h0
    subst h0
    have hnil : dateMajor members dates = [] := hperm.symm.eq_nil
    rcases members with _ | ⟨m0, ms⟩
    · exact hmne rfl
    rcases dates with _ | ⟨d0, ds⟩
    · exact hdne rfl
    simp [dateMajor] at hnil
  unfold load_ensemble_any_latlon
  rw [if_neg (by simpa [List.isEmpty_iff] using hfsne)]
  rw [hsort]
  unfold groupByMember
  have hkeys : firstOccs ((dateMajor members dates).map EFile.member) = members := by
    rw [dateMajor_map_member]
    rcases dates with _ | ⟨d0, ds⟩
    · exact absurd rfl hdne
    rw [List.flatMap_cons]
    apply firstOccs_cross members _ hnd
    intro x hx
    obtain ⟨a, _, hmem⟩ := List.mem_flatMap.mp hx
    exact hmem
  rw [hkeys]
  rw [List.map_map]
  congr 1
  apply List.map_congr_left
  intro m hmm
  simp only [Function.comp]
  rw [dateMajor_filter_member members dates m hnd hmm]
  rw [sorted_memberFiles dates m hd]
  rw [List.map_map]
  rw [show (EFile.date ∘ fun d => EFile.mk d m) = id from rfl, List.map_id]

/-- Witness for claim C3: a scrambled 2-member, 2-day file set assembles
into members 0, 1 in ascending order, each with the two dates in
ascending order. -/
theorem claim_C3_witness :
    load_ensemble_any_latlon fsEx
      = some [(0, [20170101, 20170102]), (1, [20170101, 20170102])] :=
  claim_C3 [0, 1] [20170101, 20170102] fsEx (by decide) (by decide) (by decide) (by decide)
    (by decide)

end ARA
